import Mathlib

/-
Verification of the kipper installer (src/src/main.rs) against its
natural-language specification.

The program is a synchronous, single-threaded installer whose observable
behaviour is a sequence of filesystem operations, external-command
invocations and process exit codes.  We shallowly embed it as pure
functions over an explicit filesystem state:

* paths are lists of components (`Path := List String`);
* the filesystem is three association structures: directories, regular
  files (with contents) and symbolic links (with targets);
* `Path::exists()` is modelled faithfully as *following* symbolic links
  (a dangling link "does not exist"), which is decisive for the
  uninstall behaviour;
* external collaborators (git, cargo, stdin, the OS outcome of the final
  scratch removal) are an oracle record `Ext` plus a `hostFault` flag;
* fallible `std::fs` calls return `Except FsErr`, and installer steps
  return `Except (InstallerError × FsState) FsState` so that the state
  at the moment of failure is retained (the real program's filesystem
  keeps all mutations made before an error).

The model covers the Unix (`cfg!(unix)`) compilation of the program,
with `Installer::new` additionally parameterised by the `cfg!(windows)`
flag because the specification speaks about both hosts there.
Log lines written with `println!` are presentational (spec §6) and are
not modelled; `MainResult.stdout` records the dispatch-level output
(usage text, version line) and `MainResult.stderr` records the
program's only two `eprintln!` sites, completely.
-/

namespace Kipper

/-- A filesystem path, as a list of components. -/
abbrev Path := List String

instance exceptDecEq {ε α : Type} [DecidableEq ε] [DecidableEq α] :
    DecidableEq (Except ε α) := fun a b =>
  match a, b with
  | .error x, .error y =>
    if h : x = y then .isTrue (by rw [h])
    else .isFalse (by intro he; cases he; exact h rfl)
  | .error _, .ok _ => .isFalse (by intro he; cases he)
  | .ok _, .error _ => .isFalse (by intro he; cases he)
  | .ok x, .ok y =>
    if h : x = y then .isTrue (by rw [h])
    else .isFalse (by intro he; cases he; exact h rfl)

/-- First value bound to key p in an association list (front shadows). -/
def lookupPath {α : Type} : List (Path × α) → Path → Option α
  | [], _ => none
  | (q, v) :: rest, p => if q = p then some v else lookupPath rest p

/-- Membership of a path in a list of paths. -/
def memPath : List Path → Path → Bool
  | [], _ => false
  | d :: rest, p => if d = p then true else memPath rest p

/-- Remove every binding of key p. -/
def eraseKey {α : Type} (p : Path) : List (Path × α) → List (Path × α)
  | [] => []
  | (q, v) :: rest => if q = p then eraseKey p rest else (q, v) :: eraseKey p rest

/-- Does path p lead (as a component-wise prefix) to path q?
This is the "q is at or below directory p" relation. -/
def leads : Path → Path → Bool
  | [], _ => true
  | _ :: _, [] => false
  | a :: as, b :: bs => if a = b then leads as bs else false

/-- Remove every binding whose key is at or below p. -/
def eraseUnder {α : Type} (p : Path) : List (Path × α) → List (Path × α)
  | [] => []
  | (q, v) :: rest => if leads p q then eraseUnder p rest else (q, v) :: eraseUnder p rest

/-- Remove every path at or below p. -/
def eraseUnderDirs (p : Path) : List Path → List Path
  | [] => []
  | d :: rest => if leads p d then eraseUnderDirs p rest else d :: eraseUnderDirs p rest

/-- The filesystem: directories, regular files with contents, and
symbolic links with their targets. -/
structure FsState where
  dirs : List Path
  files : List (Path × String)
  symlinks : List (Path × Path)
deriving DecidableEq, Repr

/-- Content of the regular file at p, if any. -/
def FsState.fileContent (s : FsState) (p : Path) : Option String :=
  lookupPath s.files p

/-- Target of the symbolic link at p, if any. -/
def FsState.linkTarget (s : FsState) (p : Path) : Option Path :=
  lookupPath s.symlinks p

/-- Is there a directory at p? -/
def FsState.isDir (s : FsState) (p : Path) : Bool :=
  memPath s.dirs p

/-- Is there any filesystem entry (directory, file or symlink) at p?
This is what the OS consults when creating a new entry at p. -/
def FsState.hasEntry (s : FsState) (p : Path) : Bool :=
  s.isDir p || (s.fileContent p).isSome || (s.linkTarget p).isSome

/-- Model of Rust's `Path::exists()` (via `fs::metadata`): it follows
symbolic links, so a dangling symlink reports `false`.  The program
creates only one level of links, so one resolution step suffices. -/
def FsState.pathExists (s : FsState) (p : Path) : Bool :=
  match s.linkTarget p with
  | some t => s.isDir t || (s.fileContent t).isSome
  | none => s.isDir p || (s.fileContent p).isSome

/-- Follow a symlink at p one step, as the file-content operations
(`fs::copy`, `fs::write`) do. -/
def FsState.resolve (s : FsState) (p : Path) : Path :=
  match s.linkTarget p with
  | some t => t
  | none => p

/-- The io error cases the embedding distinguishes.  `hostFault` stands
for an environment-caused failure (permissions, busy mount, ...) of a
removal; it is injected by an oracle, never by the model itself. -/
inductive FsErr
  | notFound
  | alreadyExists
  | isDirectory
  | hostFault
deriving DecidableEq, Repr

/-- Model of `fs::create_dir_all`: an existing directory is not an
error. -/
def FsState.createDirAll (s : FsState) (p : Path) : FsState :=
  if s.isDir p then s else { s with dirs := p :: s.dirs }

/-- Overwrite or create the regular file at exactly p. -/
def FsState.setFile (s : FsState) (p : Path) (c : String) : FsState :=
  { s with files := (p, c) :: eraseKey p s.files }

/-- Model of `fs::write`: writes through a symlink at the destination. -/
def FsState.writeFile (s : FsState) (p : Path) (c : String) : FsState :=
  s.setFile (s.resolve p) c

/-- Model of `fs::copy`: follows symlinks at both ends; fails if the
source is not a readable regular file. -/
def FsState.copyFile (s : FsState) (src dst : Path) : Except FsErr FsState :=
  match s.fileContent (s.resolve src) with
  | some c => .ok (s.setFile (s.resolve dst) c)
  | none => .error .notFound

/-- Remove the file entries (regular file or symlink, not following) at
exactly p. -/
def FsState.unlinkAt (s : FsState) (p : Path) : FsState :=
  { s with files := eraseKey p s.files, symlinks := eraseKey p s.symlinks }

/-- Model of `fs::remove_file`: removes a regular file or the symlink
itself (it does not follow the link); a directory or a missing path is
an error. -/
def FsState.removeFile (s : FsState) (p : Path) : Except FsErr FsState :=
  if (s.fileContent p).isSome || (s.linkTarget p).isSome then .ok (s.unlinkAt p)
  else if s.isDir p then .error .isDirectory
  else .error .notFound

/-- Model of `std::os::unix::fs::symlink`: fails if any entry (even a
dangling symlink) already occupies the link path. -/
def FsState.mkSymlink (s : FsState) (target link : Path) : Except FsErr FsState :=
  if s.hasEntry link then .error .alreadyExists
  else .ok { s with symlinks := (link, target) :: s.symlinks }

/-- Remove the entry at p and everything below it. -/
def FsState.removeAllAt (s : FsState) (p : Path) : FsState :=
  { dirs := eraseUnderDirs p s.dirs
    files := eraseUnder p s.files
    symlinks := eraseUnder p s.symlinks }

/-- Model of `fs::remove_dir_all`: a missing path is an error (the
program always guards the call with an existence check). -/
def FsState.removeDirAll (s : FsState) (p : Path) : Except FsErr FsState :=
  if s.hasEntry p then .ok (s.removeAllAt p) else .error .notFound

/-- The error enum of main.rs (`InstallerError`).  `io` wraps an
`io::Error`; the message payloads are kept verbatim. -/
inductive InstallerError
  | io (e : FsErr)
  | git (msg : String)
  | cargo (msg : String)
  | pathError (msg : String)
deriving DecidableEq, Repr

/-- The `Installer` struct: the three derived paths. -/
structure Installer where
  install_dir : Path
  bin_dir : Path
  temp_dir : Path
deriving DecidableEq, Repr

/-- Model of `Installer::new`: home from HOME, else USERPROFILE, else a
path error; `install_dir = home/.kopi`; `bin_dir` is `install_dir` on
Windows and `home/.local/bin` otherwise; `temp_dir` is
`tempRoot/kopi-install-<pid>`. -/
def Installer.new (home userprofile : Option Path) (windows : Bool)
    (tempRoot : Path) (pid : Nat) : Except InstallerError Installer :=
  match (match home with | some h => some h | none => userprofile) with
  | none => .error (.pathError "Could not determine home directory")
  | some h =>
    let install_dir := h ++ [".kopi"]
    let bin_dir := if windows then install_dir else h ++ [".local", "bin"]
    let temp_dir := tempRoot ++ ["kopi-install-" ++ toString pid]
    .ok { install_dir := install_dir, bin_dir := bin_dir, temp_dir := temp_dir }

/-- `binary_name` on Unix hosts (`kopi.exe` on Windows). -/
def binary_name : String := "kopi"

/-- Oracle for the external collaborators of one run: dependency
probes, git clone outcome, cargo build outcome (and whether the build
laid down the expected binary, with its bytes), and the line read at
the reinstall prompt. -/
structure Ext where
  gitOk : Bool
  cargoOk : Bool
  cloneOk : Bool
  cloneStderr : String
  buildOk : Bool
  buildStderr : String
  buildProducesBinary : Bool
  builtBinary : String
  userInput : String
deriving DecidableEq, Repr

/-- A step of the lifecycle: on failure the error and the filesystem at
that moment. -/
def liftFs (s : FsState) (r : Except FsErr FsState) :
    Except (InstallerError × FsState) FsState :=
  match r with
  | .ok s1 => .ok s1
  | .error e => .error (.io e, s)

/-- ASCII lowercasing of one character, the fragment of Rust
`to_lowercase` the prompt test can observe. -/
def lowerChar (c : Char) : Char :=
  if 65 ≤ c.toNat ∧ c.toNat ≤ 90 then Char.ofNat (c.toNat + 32) else c

/-- Leading and trailing whitespace removal over the character list,
the model of `str::trim`. -/
def trimChars (cs : List Char) : List Char :=
  ((cs.dropWhile Char.isWhitespace).reverse.dropWhile Char.isWhitespace).reverse

/-- Model of the reinstall prompt answer test:
`input.trim().to_lowercase().starts_with('y')`, embedded over the
input's character list so it is kernel-executable. -/
def acceptsReinstall (input : String) : Bool :=
  match (trimChars input.data).map lowerChar with
  | [] => false
  | c :: _ => c = 'y'

/-- Model of `Installer::check_dependencies`. -/
def Installer.check_dependencies (_i : Installer) (ext : Ext) :
    Option InstallerError :=
  if !ext.gitOk then some (.git "git not found")
  else if !ext.cargoOk then some (.cargo "cargo not found")
  else none

/-- Model of `Installer::create_directories`. -/
def Installer.create_directories (i : Installer) (s : FsState) : FsState :=
  ((s.createDirAll i.install_dir).createDirAll i.bin_dir).createDirAll i.temp_dir

/-- The filesystem after the clone directory exists and cargo has run:
when the compiler laid down the binary, the build-output subtree with
the binary file at `clone_dir/target/release/kopi` is present. -/
def buildOutputState (i : Installer) (ext : Ext) (s : FsState) : FsState :=
  let clone_dir := i.temp_dir ++ ["kopi-lang"]
  let s1 := s.createDirAll clone_dir
  if ext.buildProducesBinary then
    (((s1.createDirAll (clone_dir ++ ["target"])).createDirAll
        (clone_dir ++ ["target", "release"])).setFile
      (clone_dir ++ ["target", "release", binary_name]) ext.builtBinary)
  else s1

/-- Model of `Installer::download_and_build`: clone into
`temp_dir/kopi-lang`, build, then require the binary at
`target/release/kopi`. -/
def Installer.download_and_build (i : Installer) (ext : Ext) (s : FsState) :
    Except (InstallerError × FsState) FsState :=
  let clone_dir := i.temp_dir ++ ["kopi-lang"]
  if !ext.cloneOk then
    .error (.git ("Failed to clone repository: " ++ ext.cloneStderr), s)
  else
    let s1 := s.createDirAll clone_dir
    if !ext.buildOk then
      .error (.cargo ("Build failed: " ++ ext.buildStderr), s1)
    else
      let s2 := buildOutputState i ext s
      if !(s2.pathExists (clone_dir ++ ["target", "release", binary_name])) then
        .error (.cargo "Built binary not found", s2)
      else .ok s2

/-- Model of `Installer::install_binary` (Unix): copy the built binary
to `install_dir/kopi`, remove an existing `bin_dir/kopi` when
`Path::exists()` reports it, then symlink `bin_dir/kopi` to it. -/
def Installer.install_binary (i : Installer) (s : FsState) :
    Except (InstallerError × FsState) FsState :=
  let source_path := i.temp_dir ++ ["kopi-lang", "target", "release", binary_name]
  let dest_path := i.install_dir ++ [binary_name]
  match liftFs s (s.copyFile source_path dest_path) with
  | .error e => .error e
  | .ok s1 =>
    let bin_path := i.bin_dir ++ ["kopi"]
    match (if s1.pathExists bin_path then liftFs s1 (s1.removeFile bin_path)
           else .ok s1) with
    | .error e => .error e
    | .ok s2 => liftFs s2 (s2.mkSymlink dest_path bin_path)

/-- Render a path the way `Display` for `Path` does, for embedding into
the uninstaller script text. -/
def renderPath (p : Path) : String := String.intercalate "/" p

/-- The Unix uninstaller script text written by `create_uninstaller`. -/
def uninstallScript (installDisplay homeDisplay : String) : String :=
  "#!/bin/bash\necho \"Uninstalling Kopi Language...\"\nrm -f \"" ++ installDisplay
    ++ "/kopi\"\nrm -f \"" ++ homeDisplay
    ++ "/.local/bin/kopi\"\nrm -rf \"" ++ installDisplay
    ++ "\"\necho \"Kopi has been uninstalled successfully\""

/-- Model of `Installer::create_uninstaller` (Unix): write
`install_dir/uninstall.sh` (the permission bits carry no claim and are
not tracked). -/
def Installer.create_uninstaller (i : Installer) (home : Option Path)
    (s : FsState) : Except (InstallerError × FsState) FsState :=
  let home_dir := match home with | some h => renderPath h | none => "."
  let script := uninstallScript (renderPath i.install_dir) home_dir
  .ok (s.writeFile (i.install_dir ++ ["uninstall.sh"]) script)

/-- Model of `Installer::cleanup`: remove `temp_dir` if it exists; the
oracle flag injects an OS-level failure of that removal. -/
def Installer.cleanup (i : Installer) (hostFault : Bool) (s : FsState) :
    Except (InstallerError × FsState) FsState :=
  if s.pathExists i.temp_dir then
    if hostFault then .error (.io .hostFault, s)
    else liftFs s (s.removeDirAll i.temp_dir)
  else .ok s

/-- Model of `Installer::verify_installation`: only the existence check
is control flow; the PATH probe merely selects the message printed. -/
def Installer.verify_installation (i : Installer) (s : FsState) :
    Except (InstallerError × FsState) FsState :=
  if s.pathExists (i.install_dir ++ [binary_name]) then .ok s
  else .error (.pathError "Installation verification failed", s)

/-- Model of `Installer::uninstall` (Unix): remove the binary if
`Path::exists()`, remove `bin_dir/kopi` if `Path::exists()` (which
follows the symlink), then remove `install_dir` recursively if it
exists. -/
def Installer.uninstall (i : Installer) (s : FsState) :
    Except (InstallerError × FsState) FsState :=
  let binary_path := i.install_dir ++ [binary_name]
  match (if s.pathExists binary_path then liftFs s (s.removeFile binary_path)
         else .ok s) with
  | .error e => .error e
  | .ok s1 =>
    let bin_path := i.bin_dir ++ ["kopi"]
    match (if s1.pathExists bin_path then liftFs s1 (s1.removeFile bin_path)
           else .ok s1) with
    | .error e => .error e
    | .ok s2 =>
      if s2.pathExists i.install_dir then liftFs s2 (s2.removeDirAll i.install_dir)
      else .ok s2

/-- Model of `Installer::install` as the list of filesystem states the
run passes through (one entry per filesystem step, the external cargo
build counting as one step, starting at the initial state) together
with the error it ends in, if any.  Mirrors the body of `install` and
of the steps it calls, in order: reinstall gate, dependency checks,
directory creation, clone+build, binary placement, uninstaller
creation, verification. -/
def Installer.installRun (i : Installer) (home : Option Path) (ext : Ext)
    (s : FsState) : List FsState × Option InstallerError :=
  let binary_path := i.install_dir ++ [binary_name]
  if s.pathExists binary_path && !acceptsReinstall ext.userInput then
    ([s], none)
  else
    if !ext.gitOk then ([s], some (.git "git not found"))
    else if !ext.cargoOk then ([s], some (.cargo "cargo not found"))
    else
      let s1 := s.createDirAll i.install_dir
      let s2 := s1.createDirAll i.bin_dir
      let s3 := s2.createDirAll i.temp_dir
      let clone_dir := i.temp_dir ++ ["kopi-lang"]
      if !ext.cloneOk then
        ([s, s1, s2, s3],
          some (.git ("Failed to clone repository: " ++ ext.cloneStderr)))
      else
        let s4 := s3.createDirAll clone_dir
        if !ext.buildOk then
          ([s, s1, s2, s3, s4],
            some (.cargo ("Build failed: " ++ ext.buildStderr)))
        else
          let s5 := buildOutputState i ext s3
          if !(s5.pathExists (clone_dir ++ ["target", "release", binary_name])) then
            ([s, s1, s2, s3, s4, s5], some (.cargo "Built binary not found"))
          else
            let dest_path := i.install_dir ++ [binary_name]
            match s5.copyFile (clone_dir ++ ["target", "release", binary_name])
                dest_path with
            | .error e => ([s, s1, s2, s3, s4, s5], some (.io e))
            | .ok s6 =>
              let bin_path := i.bin_dir ++ ["kopi"]
              match (if s6.pathExists bin_path then s6.removeFile bin_path
                     else .ok s6) with
              | .error e => ([s, s1, s2, s3, s4, s5, s6], some (.io e))
              | .ok s7 =>
                match s7.mkSymlink dest_path bin_path with
                | .error e =>
                  ([s, s1, s2, s3, s4, s5, s6, s7], some (.io e))
                | .ok s8 =>
                  let s9 := s8.writeFile (i.install_dir ++ ["uninstall.sh"])
                    (uninstallScript (renderPath i.install_dir)
                      (match home with | some h => renderPath h | none => "."))
                  if s9.pathExists dest_path then
                    ([s, s1, s2, s3, s4, s5, s6, s7, s8, s9], none)
                  else
                    ([s, s1, s2, s3, s4, s5, s6, s7, s8, s9],
                      some (.pathError "Installation verification failed"))

/-- Model of `Installer::install` as a step: final state, or error with
the state at that moment. -/
def Installer.install (i : Installer) (home : Option Path) (ext : Ext)
    (s : FsState) : Except (InstallerError × FsState) FsState :=
  match i.installRun home ext s with
  | (ts, none) => .ok (ts.getLastD s)
  | (ts, some e) => .error (e, ts.getLastD s)

/-- The usage text printed by `show_help` (to standard output), one
line per `println!`. -/
def show_help : List String :=
  ["Kipper - The Kopi Language Installer",
   "",
   "USAGE:",
   "    kipper [OPTIONS]",
   "",
   "OPTIONS:",
   "    -h, --help        Show this help message",
   "    -u, --uninstall   Uninstall Kopi",
   "    -v, --version     Show version information",
   "",
   "EXAMPLES:",
   "    kipper              Install Kopi",
   "    kipper --uninstall  Uninstall Kopi"]

/-- The version line printed for `-v`/`--version`. -/
def versionLine : String := "Kipper v0.1.0 - The Kopi Language Installer"

/-- Rust derive-Debug rendering of an `InstallerError`, as interpolated
into the initialization failure message. -/
def debugText : InstallerError → String
  | .io _ => "Io(..)"
  | .git m => "Git(\"" ++ m ++ "\")"
  | .cargo m => "Cargo(\"" ++ m ++ "\")"
  | .pathError m => "PathError(\"" ++ m ++ "\")"

/-- Observable outcome of one process run: exit code, dispatch-level
standard output (usage text, version line), the complete standard
error, and the final filesystem. -/
structure MainResult where
  exitCode : Nat
  stdout : List String
  stderr : List String
  finalState : FsState
deriving DecidableEq, Repr

/-- The state the filesystem is left in by `installer.cleanup(...)`
whose error, if any, `main` discards. -/
def afterCleanup (i : Installer) (hostFault : Bool) (s : FsState) : FsState :=
  match i.cleanup hostFault s with
  | .ok s1 => s1
  | .error (_, s1) => s1

/-- The tail of `main` shared by all recognized commands: run
`cleanup` on the state the command left behind, discard its outcome,
and exit 0 exactly when the command succeeded. -/
def finishRun (i : Installer) (hostFault : Bool) (out err : List String)
    (result : Except (InstallerError × FsState) FsState) : MainResult :=
  let sAfter := match result with | .ok s1 => s1 | .error (_, s1) => s1
  let sFinal := afterCleanup i hostFault sAfter
  match result with
  | .ok _ =>
    { exitCode := 0, stdout := out, stderr := err, finalState := sFinal }
  | .error _ =>
    { exitCode := 1, stdout := out, stderr := err, finalState := sFinal }

/-- The host environment of one run: the two home variables, the temp
root and the process id. -/
structure Env where
  home : Option Path
  userprofile : Option Path
  tempRoot : Path
  pid : Nat
deriving DecidableEq, Repr

/-- Model of `main` (Unix compilation): build the installer, dispatch
on the first argument, run cleanup with its result discarded, and exit
1 exactly on a command error.  The unknown-argument arm and the
initialization failure call `process::exit(1)` directly, before any
cleanup. -/
def mainRun (args : List String) (env : Env) (ext : Ext) (hostFault : Bool)
    (s : FsState) : MainResult :=
  match Installer.new env.home env.userprofile false env.tempRoot env.pid with
  | .error e =>
    { exitCode := 1, stdout := [],
      stderr := ["Failed to initialize installer: " ++ debugText e],
      finalState := s }
  | .ok installer =>
    match args.head? with
    | none => finishRun installer hostFault [] [] (installer.install env.home ext s)
    | some a =>
      if a = "-h" ∨ a = "--help" then
        finishRun installer hostFault show_help [] (.ok s)
      else if a = "-u" ∨ a = "--uninstall" then
        finishRun installer hostFault [] [] (installer.uninstall s)
      else if a = "-v" ∨ a = "--version" then
        finishRun installer hostFault [versionLine] [] (.ok s)
      else
        { exitCode := 1, stdout := show_help,
          stderr := ["Unknown option: " ++ a], finalState := s }

/-- Modelled from the spec: the PATH Integrator (spec §4.5, §6) has no
implementation under src/ (the repository corpus the spec describes
contains further lifecycle variants that are not part of src/).  The
export line it manages for a binary directory. -/
def exportLine (binDir : String) : String :=
  "export PATH=\"" ++ binDir ++ ":$PATH\""

/-- Modelled from the spec: the comment of the appended two-line block,
`# <toolchain> Environment` (spec §6). -/
def pathComment : String := "# Kopi Environment"

/-- Modelled from the spec: the lines the PATH Integrator reads from
the profile file, an absent file (`none`) being treated as empty. -/
def profileLines : Option (List String) → List String
  | none => []
  | some ls => ls

/-- Modelled from the spec: `ensureOnPath` (spec §4.5) reads the
profile file (treating an absent file as empty), checks whether the
export line for `binDir` already occurs verbatim, and appends the
comment-plus-export block only if it is absent; it never removes or
rewrites existing content.  The profile is a list of lines, `none` when
the file is absent. -/
def ensureOnPath (binDir : String) (profile : Option (List String)) :
    List String :=
  let contents := profileLines profile
  if contents.contains (exportLine binDir) then contents
  else contents ++ [pathComment, exportLine binDir]

/-- A concrete home directory for concrete runs. -/
def demoHome : Path := ["home", "user"]

/-- The installer the environment resolver derives from `demoHome` on a
POSIX host with temp root `/tmp` and pid 1. -/
def demoInstaller : Installer :=
  { install_dir := ["home", "user", ".kopi"]
    bin_dir := ["home", "user", ".local", "bin"]
    temp_dir := ["tmp", "kopi-install-1"] }

/-- A concrete host environment. -/
def demoEnv : Env :=
  { home := some demoHome, userprofile := none, tempRoot := ["tmp"], pid := 1 }

/-- A concrete oracle where every external collaborator succeeds and
the prompt reads an empty line. -/
def demoExt : Ext :=
  { gitOk := true, cargoOk := true, cloneOk := true, cloneStderr := ""
    buildOk := true, buildStderr := "", buildProducesBinary := true
    builtBinary := "KOPI-ELF", userInput := "" }

/-- The empty filesystem. -/
def emptyFs : FsState := { dirs := [], files := [], symlinks := [] }

/-- The filesystem of a POSIX host on which an install has completed:
binary and uninstaller inside the install root, and the `bin_dir/kopi`
symlink pointing at the binary. -/
def installedState : FsState :=
  { dirs := [["home", "user", ".kopi"], ["home", "user", ".local", "bin"]]
    files := [(["home", "user", ".kopi", "kopi"], "KOPI-ELF"),
              (["home", "user", ".kopi", "uninstall.sh"], "SCRIPT")]
    symlinks := [(["home", "user", ".local", "bin", "kopi"],
                  ["home", "user", ".kopi", "kopi"])] }

/-- What `Installer::uninstall` actually leaves behind when run on
`installedState`: the install root is gone, but the now-dangling
symlink survives. -/
def afterUninstallState : FsState :=
  { dirs := [["home", "user", ".local", "bin"]]
    files := []
    symlinks := [(["home", "user", ".local", "bin", "kopi"],
                  ["home", "user", ".kopi", "kopi"])] }

section FsLemmas

variable {α : Type}

lemma lookupPath_eraseKey (q p : Path) (l : List (Path × α)) :
    lookupPath (eraseKey q l) p = if q = p then none else lookupPath l p := by
  induction l with
  | nil => simp [eraseKey, lookupPath]
  | cons hd tl ih =>
    obtain ⟨a, v⟩ := hd
    by_cases haq : a = q
    · subst haq
      by_cases hap : a = p
      · subst hap
        simp [eraseKey, lookupPath, ih]
      · simp [eraseKey, lookupPath, ih, hap]
    · by_cases hap : a = p
      · subst hap
        simp [eraseKey, lookupPath, haq, Ne.symm haq]
      · simp [eraseKey, lookupPath, haq, hap, ih]

lemma leads_refl (p : Path) : leads p p = true := by
  induction p with
  | nil => rfl
  | cons a as ih => simp [leads, ih]

lemma leads_append (p r : Path) : leads p (p ++ r) = true := by
  induction p with
  | nil => rfl
  | cons a as ih => simp [leads, ih]

lemma lookupPath_eraseUnder (p q : Path) (l : List (Path × α))
    (h : leads p q = true) : lookupPath (eraseUnder p l) q = none := by
  induction l with
  | nil => rfl
  | cons hd tl ih =>
    obtain ⟨a, v⟩ := hd
    by_cases hl : leads p a = true
    · simp [eraseUnder, hl, ih]
    · have haq : a ≠ q := by
        intro he; subst he; exact hl h
      simp [eraseUnder, hl, lookupPath, haq, ih]

lemma memPath_eraseUnderDirs (p q : Path) (l : List Path)
    (h : leads p q = true) : memPath (eraseUnderDirs p l) q = false := by
  induction l with
  | nil => rfl
  | cons d tl ih =>
    by_cases hl : leads p d = true
    · simp [eraseUnderDirs, hl, ih]
    · have hdq : d ≠ q := by
        intro he; subst he; exact hl h
      simp [eraseUnderDirs, hl, memPath, hdq, ih]

@[simp] lemma fileContent_createDirAll (s : FsState) (d p : Path) :
    (s.createDirAll d).fileContent p = s.fileContent p := by
  unfold FsState.createDirAll
  split <;> rfl

@[simp] lemma linkTarget_createDirAll (s : FsState) (d p : Path) :
    (s.createDirAll d).linkTarget p = s.linkTarget p := by
  unfold FsState.createDirAll
  split <;> rfl

@[simp] lemma fileContent_setFile (s : FsState) (q p : Path) (c : String) :
    (s.setFile q c).fileContent p
      = if q = p then some c else s.fileContent p := by
  unfold FsState.setFile FsState.fileContent
  simp [lookupPath, lookupPath_eraseKey]
  split <;> simp

@[simp] lemma linkTarget_setFile (s : FsState) (q p : Path) (c : String) :
    (s.setFile q c).linkTarget p = s.linkTarget p := rfl

@[simp] lemma fileContent_unlinkAt (s : FsState) (q p : Path) :
    (s.unlinkAt q).fileContent p
      = if q = p then none else s.fileContent p := by
  unfold FsState.unlinkAt FsState.fileContent
  simp [lookupPath_eraseKey]

@[simp] lemma linkTarget_unlinkAt (s : FsState) (q p : Path) :
    (s.unlinkAt q).linkTarget p
      = if q = p then none else s.linkTarget p := by
  unfold FsState.unlinkAt FsState.linkTarget
  simp [lookupPath_eraseKey]

lemma hasEntry_false_parts (s : FsState) (p : Path)
    (h : s.hasEntry p = false) :
    s.isDir p = false ∧ s.fileContent p = none ∧ s.linkTarget p = none := by
  unfold FsState.hasEntry at h
  simp only [Bool.or_eq_false_iff] at h
  obtain ⟨⟨h1, h2⟩, h3⟩ := h
  refine ⟨h1, ?_, ?_⟩
  · cases hfc : s.fileContent p with
    | none => rfl
    | some c => rw [hfc] at h2; simp at h2
  · cases hlt : s.linkTarget p with
    | none => rfl
    | some t => rw [hlt] at h3; simp at h3

lemma pathExists_hasEntry (s : FsState) (p : Path)
    (h : s.pathExists p = true) : s.hasEntry p = true := by
  unfold FsState.pathExists at h
  unfold FsState.hasEntry
  cases hl : s.linkTarget p with
  | some t => simp [hl]
  | none =>
    rw [hl] at h
    simp only [hl, Option.isSome_none, Bool.or_false]
    simpa using h

lemma hasEntry_false_pathExists {s : FsState} {p : Path}
    (h : s.hasEntry p = false) : s.pathExists p = false := by
  obtain ⟨h1, h2, h3⟩ := hasEntry_false_parts s p h
  unfold FsState.pathExists
  rw [h3, h1, h2]
  rfl

lemma pathExists_removeAllAt_self (s : FsState) (p : Path) :
    (s.removeAllAt p).pathExists p = false := by
  unfold FsState.removeAllAt FsState.pathExists FsState.linkTarget
    FsState.fileContent FsState.isDir
  simp only [lookupPath_eraseUnder p p _ (leads_refl p),
    memPath_eraseUnderDirs p p _ (leads_refl p)]
  simp

lemma afterCleanup_clears (i : Installer) (s : FsState) :
    (afterCleanup i false s).pathExists i.temp_dir = false := by
  unfold afterCleanup Installer.cleanup
  by_cases h : s.pathExists i.temp_dir = true
  · have he := pathExists_hasEntry s i.temp_dir h
    simp [h, liftFs, FsState.removeDirAll, he, pathExists_removeAllAt_self]
  · simp at h
    simp [h]

lemma afterCleanup_of_absent (i : Installer) (hf : Bool) (s : FsState)
    (h : s.pathExists i.temp_dir = false) : afterCleanup i hf s = s := by
  unfold afterCleanup Installer.cleanup
  simp [h]

lemma append_left_cancel_eq {xs l1 l2 : List String}
    (he : xs ++ l1 = xs ++ l2) : l1 = l2 := by
  induction xs with
  | nil => simpa using he
  | cons a as ih => exact ih (by simpa using he)

lemma append_ne_of_length_ne (xs l1 l2 : List String)
    (h : l1.length ≠ l2.length) : xs ++ l1 ≠ xs ++ l2 := by
  intro he
  apply h
  have hl := congrArg List.length he
  simp only [List.length_append] at hl
  omega

lemma snoc_ne_snoc (xs ys : List String) (a b : String) (hab : a ≠ b) :
    xs ++ [a] ≠ ys ++ [b] := by
  intro he
  apply hab
  have h1 : (xs ++ [a]).getLast? = some a := by simp
  have h2 : (ys ++ [b]).getLast? = some b := by simp
  rw [he, h2] at h1
  exact (Option.some.inj h1).symm

@[simp] lemma isDir_createDirAll (s : FsState) (d p : Path) :
    (s.createDirAll d).isDir p = ((d = p) || s.isDir p) := by
  unfold FsState.createDirAll
  by_cases hd : s.isDir d = true
  · rw [if_pos hd]
    by_cases hdp : d = p
    · subst hdp; simp [hd]
    · simp [hdp]
  · rw [if_neg hd]
    unfold FsState.isDir
    by_cases hdp : d = p
    · subst hdp; simp [memPath]
    · simp [memPath, hdp]

@[simp] lemma fileContent_addSymlink (s : FsState) (l t p : Path) :
    ({ s with symlinks := (l, t) :: s.symlinks } : FsState).fileContent p
      = s.fileContent p := rfl

@[simp] lemma linkTarget_addSymlink (s : FsState) (l t p : Path) :
    ({ s with symlinks := (l, t) :: s.symlinks } : FsState).linkTarget p
      = if l = p then some t else s.linkTarget p := rfl

lemma resolve_of_no_link {s : FsState} {p : Path}
    (h : s.linkTarget p = none) : s.resolve p = p := by
  unfold FsState.resolve
  rw [h]

lemma mkSymlink_ok {s s1 : FsState} {t l : Path}
    (h : s.mkSymlink t l = .ok s1) :
    s1 = { s with symlinks := (l, t) :: s.symlinks } ∧ s.hasEntry l = false := by
  unfold FsState.mkSymlink at h
  by_cases he : s.hasEntry l = true
  · rw [if_pos he] at h
    cases h
  · rw [if_neg he] at h
    simp at h
    exact ⟨h.symm, by simpa using he⟩

lemma removeFile_ok {s s1 : FsState} {p : Path}
    (h : s.removeFile p = .ok s1) : s1 = s.unlinkAt p := by
  unfold FsState.removeFile at h
  split at h
  · simp at h
    exact h.symm
  · split at h <;> cases h

lemma copyFile_ok {s s1 : FsState} {a b : Path}
    (h : s.copyFile a b = .ok s1) :
    ∃ c, s.fileContent (s.resolve a) = some c
      ∧ s1 = s.setFile (s.resolve b) c := by
  unfold FsState.copyFile at h
  cases hc : s.fileContent (s.resolve a) with
  | none => rw [hc] at h; cases h
  | some c =>
    rw [hc] at h
    simp at h
    exact ⟨c, rfl, h.symm⟩

lemma copyFile_ok_no_link {s s1 : FsState} {a b : Path}
    (h : s.copyFile a b = .ok s1) (hb : s.linkTarget b = none) :
    ∃ c, s1 = s.setFile b c := by
  obtain ⟨c, hc, hs⟩ := copyFile_ok h
  rw [resolve_of_no_link hb] at hs
  exact ⟨c, hs⟩

lemma removeIfExists_ok {s s1 : FsState} {p : Path}
    (h : (if s.pathExists p then s.removeFile p else .ok s) = .ok s1) :
    s1 = s.unlinkAt p ∨ s1 = s := by
  by_cases hc : s.pathExists p = true
  · rw [if_pos hc] at h
    exact Or.inl (removeFile_ok h)
  · rw [if_neg hc] at h
    simp at h
    exact Or.inr h.symm

lemma leads_append_append (p x y : List String) :
    leads p ((p ++ x) ++ y) = true := by
  rw [List.append_assoc]
  exact leads_append p (x ++ y)

lemma fileContent_buildOutputState (i : Installer) (ext : Ext) (s : FsState)
    (p : Path)
    (hne : i.temp_dir ++ ["kopi-lang", "target", "release", binary_name] ≠ p) :
    (buildOutputState i ext s).fileContent p = s.fileContent p := by
  unfold buildOutputState
  by_cases hb : ext.buildProducesBinary = true
  · rw [if_pos hb]
    simp [hne]
  · rw [if_neg hb]
    simp

lemma linkTarget_buildOutputState (i : Installer) (ext : Ext) (s : FsState)
    (p : Path) :
    (buildOutputState i ext s).linkTarget p = s.linkTarget p := by
  unfold buildOutputState
  by_cases hb : ext.buildProducesBinary = true
  · rw [if_pos hb]
    simp
  · rw [if_neg hb]
    simp

lemma finishRun_exitCode (i : Installer) (hf : Bool) (out err : List String)
    (r : Except (InstallerError × FsState) FsState) :
    (finishRun i hf out err r).exitCode
      = match r with | .ok _ => 0 | .error _ => 1 := by
  unfold finishRun
  cases r <;> rfl

lemma finishRun_stdout (i : Installer) (hf : Bool) (out err : List String)
    (r : Except (InstallerError × FsState) FsState) :
    (finishRun i hf out err r).stdout = out := by
  unfold finishRun
  cases r <;> rfl

lemma finishRun_stderr (i : Installer) (hf : Bool) (out err : List String)
    (r : Except (InstallerError × FsState) FsState) :
    (finishRun i hf out err r).stderr = err := by
  unfold finishRun
  cases r <;> rfl

lemma finishRun_finalState (i : Installer) (hf : Bool) (out err : List String)
    (r : Except (InstallerError × FsState) FsState) :
    (finishRun i hf out err r).finalState
      = afterCleanup i hf (match r with | .ok s1 => s1 | .error (_, s1) => s1) := by
  unfold finishRun
  cases r with
  | ok s1 => rfl
  | error e => obtain ⟨e1, s1⟩ := e; rfl

end FsLemmas

/-- C1: the claim is that uninstalling after a completed install leaves
the install root absent and the `bin_dir/kopi` symlink absent.  The
code removes the binary first and then tests the symlink with
`Path::exists()`, which follows the now-dangling link and reports
false, so the symlink is never removed: from the fully installed state,
`uninstall` succeeds, the install root (and the binary and uninstaller
in it) is gone, but the symlink entry is still on disk (dangling, so
`Path::exists()` itself no longer sees it). -/
theorem C1_uninstall_leaves_dangling_symlink :
    Installer.new (some demoHome) none false ["tmp"] 1 = .ok demoInstaller ∧
    installedState.pathExists (demoInstaller.install_dir ++ [binary_name]) = true ∧
    installedState.linkTarget (demoInstaller.bin_dir ++ ["kopi"])
      = some (demoInstaller.install_dir ++ [binary_name]) ∧
    demoInstaller.uninstall installedState = .ok afterUninstallState ∧
    afterUninstallState.pathExists demoInstaller.install_dir = false ∧
    afterUninstallState.fileContent (demoInstaller.install_dir ++ [binary_name])
      = none ∧
    afterUninstallState.hasEntry (demoInstaller.bin_dir ++ ["kopi"]) = true ∧
    afterUninstallState.linkTarget (demoInstaller.bin_dir ++ ["kopi"])
      = some (demoInstaller.install_dir ++ [binary_name]) ∧
    afterUninstallState.pathExists (demoInstaller.bin_dir ++ ["kopi"]) = false := by
  decide

/-- C2: for every run of the install lifecycle (no arguments), whatever
the outcome — success, declined reinstall, or any fatal error — the
scratch directory does not exist in the final filesystem, provided the
host lets the removal itself succeed. -/
theorem C2_scratch_absent_after_install_lifecycle (env : Env) (ext : Ext)
    (s : FsState) (i : Installer)
    (hnew : Installer.new env.home env.userprofile false env.tempRoot env.pid
      = .ok i) :
    ((mainRun [] env ext false s).finalState).pathExists i.temp_dir = false := by
  unfold mainRun
  rw [hnew]
  simp only [List.head?]
  rw [finishRun_finalState]
  cases hr : i.install env.home ext s with
  | ok s1 => exact afterCleanup_clears i s1
  | error e => obtain ⟨e1, s1⟩ := e; exact afterCleanup_clears i s1

/-- C2 witness: a concrete successful run from the empty filesystem
leaves no scratch directory. -/
theorem C2_scratch_absent_after_install_lifecycle_witness :
    ((mainRun [] demoEnv demoExt false emptyFs).finalState).pathExists
      demoInstaller.temp_dir = false :=
  C2_scratch_absent_after_install_lifecycle demoEnv demoExt emptyFs
    demoInstaller (by decide)

/-- C3: when the binary is already installed, any prompt answer whose
trimmed lowercase form does not start with y declines the reinstall:
the run changes nothing on disk (given the per-pid scratch directory
does not pre-exist) and the process exits 0. -/
theorem C3_declined_reinstall_is_noop (env : Env) (ext : Ext) (hf : Bool)
    (s : FsState) (i : Installer)
    (hnew : Installer.new env.home env.userprofile false env.tempRoot env.pid
      = .ok i)
    (hbin : s.pathExists (i.install_dir ++ [binary_name]) = true)
    (hdecl : acceptsReinstall ext.userInput = false)
    (hscratch : s.pathExists i.temp_dir = false) :
    mainRun [] env ext hf s
      = { exitCode := 0, stdout := [], stderr := [], finalState := s } := by
  have hins : i.install env.home ext s = .ok s := by
    unfold Installer.install Installer.installRun
    simp [hbin, hdecl]
  unfold mainRun
  rw [hnew]
  simp only [List.head?]
  unfold finishRun
  rw [hins]
  simp [afterCleanup_of_absent i hf s hscratch]

/-- C3 witness: with the binary installed, the empty prompt answer
declines; the filesystem is unchanged and the exit code is 0. -/
theorem C3_declined_reinstall_is_noop_witness :
    mainRun [] demoEnv demoExt false installedState
      = { exitCode := 0, stdout := [], stderr := [],
          finalState := installedState } :=
  C3_declined_reinstall_is_noop demoEnv demoExt false installedState
    demoInstaller (by decide) (by decide) (by decide) (by decide)

/-- C9: running the uninstaller on a host with no prior install (no
binary, no symlink, no install root) succeeds without touching the
filesystem, and the `-u` run exits 0. -/
theorem C9_uninstall_fresh_host_noop (env : Env) (ext : Ext) (hf : Bool)
    (s : FsState) (i : Installer)
    (hnew : Installer.new env.home env.userprofile false env.tempRoot env.pid
      = .ok i)
    (h1 : s.pathExists (i.install_dir ++ [binary_name]) = false)
    (h2 : s.pathExists (i.bin_dir ++ ["kopi"]) = false)
    (h3 : s.pathExists i.install_dir = false) :
    i.uninstall s = .ok s ∧ (mainRun ["-u"] env ext hf s).exitCode = 0 := by
  have hu : i.uninstall s = .ok s := by
    unfold Installer.uninstall
    simp [h1, h2, h3]
  refine ⟨hu, ?_⟩
  unfold mainRun
  rw [hnew]
  simp only [List.head?]
  simp [finishRun_exitCode, hu]

/-- C9 witness: `-u` on the empty filesystem is a no-op and exits 0. -/
theorem C9_uninstall_fresh_host_noop_witness :
    demoInstaller.uninstall emptyFs = .ok emptyFs ∧
    (mainRun ["-u"] demoEnv demoExt false emptyFs).exitCode = 0 :=
  C9_uninstall_fresh_host_noop demoEnv demoExt false emptyFs demoInstaller
    (by decide) (by decide) (by decide) (by decide)

/-- C4: running the PATH Integrator twice with the same binary
directory yields a profile with exactly one export line for it — the
second run finds the line verbatim and appends nothing.  The profile is
`none` when the file is absent (it is then treated as empty);
`spec-modelled`, since the integrator has no implementation under
src/. -/
theorem C4_path_integrator_idempotent (binDir : String)
    (profile : Option (List String))
    (habs : (profileLines profile).contains (exportLine binDir) = false) :
    ensureOnPath binDir (some (ensureOnPath binDir profile))
        = ensureOnPath binDir profile ∧
    ensureOnPath binDir profile
        = profileLines profile ++ [pathComment, exportLine binDir] ∧
    (ensureOnPath binDir (some (ensureOnPath binDir profile))).count
        (exportLine binDir) = 1 := by
  have hcomment : pathComment ≠ exportLine binDir := by
    intro he
    have hl := congrArg String.length he
    rw [exportLine] at hl
    simp only [String.length_append] at hl
    have h1 : pathComment.length = 18 := by decide
    have h2 : ("export PATH=\"" : String).length = 13 := by decide
    have h3 : (":$PATH\"" : String).length = 7 := by decide
    rw [h1, h2, h3] at hl
    omega
  have honce : ensureOnPath binDir profile
      = profileLines profile ++ [pathComment, exportLine binDir] := by
    simp only [ensureOnPath]
    rw [habs]
    simp
  have hnotmem : exportLine binDir ∉ profileLines profile := by
    intro hm
    have hc : (profileLines profile).contains (exportLine binDir) = true := by
      simpa using hm
    rw [hc] at habs
    cases habs
  have htwice : ensureOnPath binDir (some (ensureOnPath binDir profile))
      = ensureOnPath binDir profile := by
    rw [honce]
    simp [ensureOnPath, profileLines]
  refine ⟨htwice, honce, ?_⟩
  rw [htwice, honce]
  rw [List.count_append]
  rw [List.count_eq_zero.mpr hnotmem]
  simp [List.count_cons, hcomment]

/-- C4 witness: integrating `~/.local/bin` into an absent profile twice
leaves exactly one export line. -/
theorem C4_path_integrator_idempotent_witness :
    ensureOnPath "/home/user/.local/bin"
        (some (ensureOnPath "/home/user/.local/bin" none))
      = ensureOnPath "/home/user/.local/bin" none ∧
    (ensureOnPath "/home/user/.local/bin"
        (some (ensureOnPath "/home/user/.local/bin" none))).count
      (exportLine "/home/user/.local/bin") = 1 := by
  have h := C4_path_integrator_idempotent "/home/user/.local/bin" none
    (by decide)
  exact ⟨h.1, h.2.2⟩

/-- C7: the environment resolver fails (with its configuration error)
exactly when neither home variable is set; on success, the Windows
binary directory is the install root, and on POSIX hosts it is the
conventional `home/.local/bin`, distinct from the install root
`home/.kopi`. -/
theorem C7_environment_resolver (home userprofile : Option Path)
    (windows : Bool) (tempRoot : Path) (pid : Nat) :
    (Installer.new home userprofile windows tempRoot pid
        = .error (.pathError "Could not determine home directory")
      ↔ home = none ∧ userprofile = none) ∧
    (∀ i, Installer.new home userprofile windows tempRoot pid = .ok i →
      (windows = true → i.bin_dir = i.install_dir) ∧
      (windows = false → ∃ h,
        (home = some h ∨ (home = none ∧ userprofile = some h)) ∧
        i.install_dir = h ++ [".kopi"] ∧
        i.bin_dir = h ++ [".local", "bin"] ∧
        i.bin_dir ≠ i.install_dir)) := by
  have hbd : ∀ h : Path, h ++ [".local", "bin"] ≠ h ++ [".kopi"] := fun h =>
    append_ne_of_length_ne h _ _ (by decide)
  constructor
  · constructor
    · intro he
      cases home with
      | some h => simp [Installer.new] at he
      | none =>
        cases userprofile with
        | some h => simp [Installer.new] at he
        | none => exact ⟨rfl, rfl⟩
    · rintro ⟨rfl, rfl⟩
      rfl
  · intro i hi
    cases home with
    | some h =>
      have hi2 : i = { install_dir := h ++ [".kopi"]
                       bin_dir := if windows then h ++ [".kopi"]
                         else h ++ [".local", "bin"]
                       temp_dir := tempRoot ++ ["kopi-install-" ++ toString pid] } := by
        unfold Installer.new at hi
        simp at hi
        exact hi.symm
      subst hi2
      constructor
      · intro hw
        simp [hw]
      · intro hw
        exact ⟨h, Or.inl rfl, rfl, by simp [hw], by simp [hw, hbd h]⟩
    | none =>
      cases userprofile with
      | some h =>
        have hi2 : i = { install_dir := h ++ [".kopi"]
                         bin_dir := if windows then h ++ [".kopi"]
                           else h ++ [".local", "bin"]
                         temp_dir := tempRoot ++ ["kopi-install-" ++ toString pid] } := by
          unfold Installer.new at hi
          simp at hi
          exact hi.symm
        subst hi2
        constructor
        · intro hw
          simp [hw]
        · intro hw
          exact ⟨h, Or.inr ⟨rfl, rfl⟩, rfl, by simp [hw], by simp [hw, hbd h]⟩
      | none => simp [Installer.new] at hi

/-- C7 witness: with only HOME set on a POSIX host, resolution succeeds
with `bin_dir = home/.local/bin` distinct from `install_dir`; with
neither variable set it fails with the configuration error. -/
theorem C7_environment_resolver_witness :
    Installer.new none none false ["tmp"] 1
      = .error (.pathError "Could not determine home directory") ∧
    demoInstaller.bin_dir ≠ demoInstaller.install_dir := by
  constructor
  · exact (C7_environment_resolver none none false ["tmp"] 1).1.mpr ⟨rfl, rfl⟩
  · have h := (C7_environment_resolver (some demoHome) none false ["tmp"] 1).2
      demoInstaller (by decide)
    obtain ⟨hh, h1, h2, h3, hne⟩ := h.2 rfl
    exact hne

/-- C8: with a successful clone, the build step fails with a cargo
error carrying the captured compiler stderr when the compiler exits
non-zero; with a zero compiler exit but no binary at
`target/release/kopi` it fails with the defensive "Built binary not
found" error; and it succeeds only in a state where that binary
exists. -/
theorem C8_build_runner_contract (i : Installer) (ext : Ext) (s : FsState)
    (hclone : ext.cloneOk = true) :
    (ext.buildOk = false →
      i.download_and_build ext s
        = .error (.cargo ("Build failed: " ++ ext.buildStderr),
            s.createDirAll (i.temp_dir ++ ["kopi-lang"]))) ∧
    (ext.buildOk = true →
      (buildOutputState i ext s).pathExists
          ((i.temp_dir ++ ["kopi-lang"]) ++ ["target", "release", binary_name])
        = false →
      i.download_and_build ext s
        = .error (.cargo "Built binary not found", buildOutputState i ext s)) ∧
    (∀ sr, i.download_and_build ext s = .ok sr →
      ext.buildOk = true ∧ sr = buildOutputState i ext s ∧
      sr.pathExists
          ((i.temp_dir ++ ["kopi-lang"]) ++ ["target", "release", binary_name])
        = true) := by
  refine ⟨?_, ?_, ?_⟩
  · intro hb
    unfold Installer.download_and_build
    rw [hclone, hb]
    simp
  · intro hb hni
    unfold Installer.download_and_build
    rw [hclone, hb]
    simp only [Bool.not_true, Bool.false_eq_true, if_false, ite_true]
    rw [hni]
    simp
  · intro sr hr
    unfold Installer.download_and_build at hr
    rw [hclone] at hr
    cases hb : ext.buildOk with
    | false => rw [hb] at hr; simp at hr
    | true =>
      rw [hb] at hr
      simp only [Bool.not_true, Bool.false_eq_true, if_false, ite_true] at hr
      refine ⟨rfl, ?_⟩
      cases hpe : (buildOutputState i ext s).pathExists
          ((i.temp_dir ++ ["kopi-lang"]) ++ ["target", "release", binary_name]) with
      | false => rw [hpe] at hr; simp at hr
      | true =>
        rw [hpe] at hr
        simp at hr
        subst hr
        exact ⟨rfl, hpe⟩

/-- C8 witness: a failing compiler yields the cargo error with its
stderr; a succeeding compiler that laid down no binary yields the
"Built binary not found" error. -/
theorem C8_build_runner_contract_witness :
    demoInstaller.download_and_build
        { demoExt with buildOk := false, buildStderr := "boom" } emptyFs
      = .error (.cargo "Build failed: boom",
          emptyFs.createDirAll (demoInstaller.temp_dir ++ ["kopi-lang"])) ∧
    demoInstaller.download_and_build
        { demoExt with buildProducesBinary := false } emptyFs
      = .error (.cargo "Built binary not found",
          buildOutputState demoInstaller
            { demoExt with buildProducesBinary := false } emptyFs) := by
  constructor
  · exact (C8_build_runner_contract demoInstaller
      { demoExt with buildOk := false, buildStderr := "boom" } emptyFs
      (by decide)).1 rfl
  · exact (C8_build_runner_contract demoInstaller
      { demoExt with buildProducesBinary := false } emptyFs
      (by decide)).2.1 rfl (by decide)

/-- C10: the exit code and both output streams of every invocation are
determined by the selected command's result alone: the outcome of the
final scratch-cleanup step (here, whether the host lets its removal
succeed) never changes them. -/
theorem C10_cleanup_failure_never_changes_outcome (args : List String)
    (env : Env) (ext : Ext) (b1 b2 : Bool) (s : FsState) :
    (mainRun args env ext b1 s).exitCode = (mainRun args env ext b2 s).exitCode ∧
    (mainRun args env ext b1 s).stdout = (mainRun args env ext b2 s).stdout ∧
    (mainRun args env ext b1 s).stderr = (mainRun args env ext b2 s).stderr := by
  unfold mainRun
  cases hnew : Installer.new env.home env.userprofile false env.tempRoot env.pid with
  | error e => exact ⟨rfl, rfl, rfl⟩
  | ok i =>
    cases args.head? with
    | none =>
      simp [finishRun_exitCode, finishRun_stdout, finishRun_stderr]
    | some a =>
      by_cases h1 : a = "-h" ∨ a = "--help"
      · simp [h1, finishRun_exitCode, finishRun_stdout, finishRun_stderr]
      · by_cases h2 : a = "-u" ∨ a = "--uninstall"
        · simp [h1, h2, finishRun_exitCode, finishRun_stdout, finishRun_stderr]
        · by_cases h3 : a = "-v" ∨ a = "--version"
          · simp [h1, h2, h3, finishRun_exitCode, finishRun_stdout,
              finishRun_stderr]
          · simp [h1, h2, h3]

/-- C5 counterexample: the claim says an unrecognized first argument
prints the usage to standard error.  On the concrete invocation with
argument `-x`, the process exits 1 but standard error carries only the
"Unknown option" line; the usage text goes to standard output. -/
theorem C5_usage_goes_to_stdout_not_stderr :
    (mainRun ["-x"] demoEnv demoExt false emptyFs).exitCode = 1 ∧
    (mainRun ["-x"] demoEnv demoExt false emptyFs).stderr
      = ["Unknown option: -x"] ∧
    "USAGE:" ∈ (mainRun ["-x"] demoEnv demoExt false emptyFs).stdout ∧
    "USAGE:" ∉ (mainRun ["-x"] demoEnv demoExt false emptyFs).stderr := by
  decide

/-- C5 as amended: no arguments installs; `-h`/`--help` prints the
usage to standard output and exits 0; `-u`/`--uninstall` exits 0 when
the uninstaller succeeds and 1 when it fails; `-v`/`--version` prints
the version line and exits 0; an unrecognized first argument prints an
error naming it to standard error, prints the usage to standard
output, and exits 1; the install run exits 0 on success (including a
declined reinstall) and 1 on any fatal lifecycle error. -/
theorem C5_cli_contract (env : Env) (ext : Ext) (hf : Bool) (s : FsState)
    (i : Installer) (arg : String)
    (hnew : Installer.new env.home env.userprofile false env.tempRoot env.pid
      = .ok i)
    (harg : arg ≠ "-h" ∧ arg ≠ "--help" ∧ arg ≠ "-u" ∧ arg ≠ "--uninstall" ∧
      arg ≠ "-v" ∧ arg ≠ "--version") :
    ((mainRun ["-h"] env ext hf s).exitCode = 0 ∧
      (mainRun ["-h"] env ext hf s).stdout = show_help) ∧
    ((mainRun ["--help"] env ext hf s).exitCode = 0 ∧
      (mainRun ["--help"] env ext hf s).stdout = show_help) ∧
    ((mainRun ["-v"] env ext hf s).exitCode = 0 ∧
      (mainRun ["-v"] env ext hf s).stdout = [versionLine]) ∧
    ((mainRun ["--version"] env ext hf s).exitCode = 0 ∧
      (mainRun ["--version"] env ext hf s).stdout = [versionLine]) ∧
    ((mainRun ["-u"] env ext hf s).exitCode
      = match i.uninstall s with | .ok _ => 0 | .error _ => 1) ∧
    ((mainRun ["--uninstall"] env ext hf s).exitCode
      = match i.uninstall s with | .ok _ => 0 | .error _ => 1) ∧
    ((mainRun [] env ext hf s).exitCode
      = match i.install env.home ext s with | .ok _ => 0 | .error _ => 1) ∧
    (s.pathExists (i.install_dir ++ [binary_name]) = true →
      acceptsReinstall ext.userInput = false →
      (mainRun [] env ext hf s).exitCode = 0) ∧
    ((mainRun [arg] env ext hf s).exitCode = 1 ∧
      (mainRun [arg] env ext hf s).stdout = show_help ∧
      (mainRun [arg] env ext hf s).stderr = ["Unknown option: " ++ arg]) := by
  obtain ⟨n1, n2, n3, n4, n5, n6⟩ := harg
  refine ⟨?_, ?_, ?_, ?_, ?_, ?_, ?_, ?_, ?_⟩
  · unfold mainRun
    rw [hnew]
    simp [finishRun_exitCode, finishRun_stdout]
  · unfold mainRun
    rw [hnew]
    simp [finishRun_exitCode, finishRun_stdout]
  · unfold mainRun
    rw [hnew]
    simp [finishRun_exitCode, finishRun_stdout]
  · unfold mainRun
    rw [hnew]
    simp [finishRun_exitCode, finishRun_stdout]
  · unfold mainRun
    rw [hnew]
    simp [finishRun_exitCode]
  · unfold mainRun
    rw [hnew]
    simp [finishRun_exitCode]
  · unfold mainRun
    rw [hnew]
    simp [finishRun_exitCode]
  · intro hbin hdecl
    have hins : i.install env.home ext s = .ok s := by
      unfold Installer.install Installer.installRun
      simp [hbin, hdecl]
    unfold mainRun
    rw [hnew]
    simp [finishRun_exitCode, hins]
  · unfold mainRun
    rw [hnew]
    simp [n1, n2, n3, n4, n5, n6]

/-- C5 witness: at concrete inputs, `-h` exits 0 and the unknown
argument `-x` exits 1 with only the error line on standard error. -/
theorem C5_cli_contract_witness :
    (mainRun ["-h"] demoEnv demoExt false emptyFs).exitCode = 0 ∧
    (mainRun ["-x"] demoEnv demoExt false emptyFs).exitCode = 1 ∧
    (mainRun ["-x"] demoEnv demoExt false emptyFs).stderr
      = ["Unknown option: -x"] := by
  have h := C5_cli_contract demoEnv demoExt false emptyFs demoInstaller "-x"
    (by decide) (by decide)
  exact ⟨h.1.1, h.2.2.2.2.2.2.2.2.1, h.2.2.2.2.2.2.2.2.2.2⟩

/-- C6: for every install run starting with no prior install (no entry
at the binary path or the uninstaller path, and a fresh scratch area),
every filesystem state the run passes through satisfies the ordering
invariant: if the uninstaller file exists, the installed binary also
exists.  The uninstaller is written only after binary placement
succeeded, and no earlier step can create it. -/
theorem C6_uninstaller_implies_binary (home : Path) (userprofile : Option Path)
    (tempRoot : Path) (pid : Nat) (home2 : Option Path) (ext : Ext)
    (s : FsState) (i : Installer)
    (hnew : Installer.new (some home) userprofile false tempRoot pid = .ok i)
    (hU : s.hasEntry (i.install_dir ++ ["uninstall.sh"]) = false)
    (hD : s.hasEntry (i.install_dir ++ [binary_name]) = false)
    (hT : ∀ p, leads i.temp_dir p = true → s.hasEntry p = false) :
    ∀ t ∈ (i.installRun home2 ext s).1,
      (t.fileContent (i.install_dir ++ ["uninstall.sh"])).isSome = true →
      (t.fileContent (i.install_dir ++ [binary_name])).isSome = true := by
  have hi : i = { install_dir := home ++ [".kopi"]
                  bin_dir := home ++ [".local", "bin"]
                  temp_dir := tempRoot ++ ["kopi-install-" ++ toString pid] } := by
    unfold Installer.new at hnew
    simp at hnew
    exact hnew.symm
  subst hi
  dsimp only at hU hD hT ⊢
  simp only [List.append_assoc, List.cons_append, List.nil_append] at hU hD hT ⊢
  obtain ⟨hsdU, hsfU, hslU⟩ := hasEntry_false_parts _ _ hU
  obtain ⟨hsdD, hsfD, hslD⟩ := hasEntry_false_parts _ _ hD
  have hDU : home ++ [".kopi", binary_name] ≠ home ++ [".kopi", "uninstall.sh"] := by
    intro he
    have h2 := append_left_cancel_eq he
    simp [binary_name] at h2
  have hUD : home ++ [".kopi", "uninstall.sh"] ≠ home ++ [".kopi", binary_name] :=
    hDU.symm
  have hBU : home ++ [".local", "bin", "kopi"] ≠ home ++ [".kopi", "uninstall.sh"] :=
    append_ne_of_length_ne home _ _ (by decide)
  have hBD : home ++ [".local", "bin", "kopi"] ≠ home ++ [".kopi", binary_name] :=
    append_ne_of_length_ne home _ _ (by decide)
  have hbinpU : tempRoot ++ ["kopi-install-" ++ toString pid, "kopi-lang",
        "target", "release", binary_name]
      ≠ home ++ [".kopi", "uninstall.sh"] := by
    intro he
    apply snoc_ne_snoc
      (tempRoot ++ ["kopi-install-" ++ toString pid, "kopi-lang", "target", "release"])
      (home ++ [".kopi"]) binary_name "uninstall.sh" (by decide)
    simpa [List.append_assoc] using he
  intro t ht
  unfold Installer.installRun at ht
  dsimp only at ht
  simp only [List.append_assoc, List.cons_append, List.nil_append] at ht
  rw [hasEntry_false_pathExists hD] at ht
  rw [Bool.false_and] at ht
  rw [if_neg (by decide : ¬(false = true))] at ht
  split at ht
  · simp only [List.mem_singleton] at ht
    subst ht
    simp [hsfU]
  · split at ht
    · simp only [List.mem_singleton] at ht
      subst ht
      simp [hsfU]
    · split at ht
      · simp only [List.mem_cons, List.not_mem_nil, or_false] at ht
        rcases ht with rfl | rfl | rfl | rfl <;> simp [hsfU]
      · split at ht
        · simp only [List.mem_cons, List.not_mem_nil, or_false] at ht
          rcases ht with rfl | rfl | rfl | rfl | rfl <;> simp [hsfU]
        · split at ht
          · simp only [List.mem_cons, List.not_mem_nil, or_false] at ht
            rcases ht with rfl | rfl | rfl | rfl | rfl | rfl <;>
              simp [hsfU, fileContent_buildOutputState, hbinpU]
          · split at ht
            · simp only [List.mem_cons, List.not_mem_nil, or_false] at ht
              rcases ht with rfl | rfl | rfl | rfl | rfl | rfl <;>
                simp [hsfU, fileContent_buildOutputState, hbinpU]
            · rename_i s6 heq6
              obtain ⟨c, hs6⟩ := copyFile_ok_no_link heq6
                (by simp [linkTarget_buildOutputState, hslD])
              subst hs6
              split at ht
              · simp only [List.mem_cons, List.not_mem_nil, or_false] at ht
                rcases ht with rfl | rfl | rfl | rfl | rfl | rfl | rfl <;>
                  simp [hsfU, fileContent_buildOutputState, hbinpU, hDU]
              · rename_i s7 heq7
                rcases removeIfExists_ok heq7 with hs7 | hs7 <;> subst hs7
                · split at ht
                  · simp only [List.mem_cons, List.not_mem_nil, or_false] at ht
                    rcases ht with rfl | rfl | rfl | rfl | rfl | rfl | rfl | rfl <;>
                      simp [hsfU, fileContent_buildOutputState, hbinpU, hDU, hBU]
                  · rename_i s8 heq8
                    obtain ⟨hs8, hfree⟩ := mkSymlink_ok heq8
                    subst hs8
                    split at ht <;>
                    · simp only [List.mem_cons, List.not_mem_nil, or_false] at ht
                      rcases ht with rfl | rfl | rfl | rfl | rfl | rfl | rfl | rfl | rfl | rfl <;>
                        simp [hsfU, hsfD, hslU, hslD, fileContent_buildOutputState,
                          linkTarget_buildOutputState, hbinpU, hDU, hUD, hBU, hBD,
                          FsState.writeFile, FsState.resolve]
                · split at ht
                  · simp only [List.mem_cons, List.not_mem_nil, or_false] at ht
                    rcases ht with rfl | rfl | rfl | rfl | rfl | rfl | rfl | rfl <;>
                      simp [hsfU, fileContent_buildOutputState, hbinpU, hDU, hBU]
                  · rename_i s8 heq8
                    obtain ⟨hs8, hfree⟩ := mkSymlink_ok heq8
                    subst hs8
                    split at ht <;>
                    · simp only [List.mem_cons, List.not_mem_nil, or_false] at ht
                      rcases ht with rfl | rfl | rfl | rfl | rfl | rfl | rfl | rfl | rfl | rfl <;>
                        simp [hsfU, hsfD, hslU, hslD, fileContent_buildOutputState,
                          linkTarget_buildOutputState, hbinpU, hDU, hUD, hBU, hBD,
                          FsState.writeFile, FsState.resolve]


set_option maxRecDepth 4000 in
/-- C6 witness: on a concrete successful run from the empty filesystem,
the final state has both the uninstaller and the binary, the latter
obtained by applying the invariant theorem to the final trace state. -/
theorem C6_uninstaller_implies_binary_witness :
    ((((demoInstaller.installRun (some demoHome) demoExt emptyFs).1.getLastD
        emptyFs).fileContent
      (demoInstaller.install_dir ++ ["uninstall.sh"])).isSome = true) ∧
    ((((demoInstaller.installRun (some demoHome) demoExt emptyFs).1.getLastD
        emptyFs).fileContent
      (demoInstaller.install_dir ++ [binary_name])).isSome = true) := by
  constructor
  · decide
  · exact C6_uninstaller_implies_binary demoHome none ["tmp"] 1 (some demoHome)
      demoExt emptyFs demoInstaller (by decide) (by decide) (by decide)
      (by intro p hp; rfl) _ (by decide) (by decide)

end Kipper
